import Mathlib

/-
Verification of the DiceChess rule engine (DiceChess.py).

The repository implements a dice-chess variant on top of an external board
engine (python-chess's Board class).  The board engine itself is out of scope
for the repository and is consumed through a narrow interface: piece lookup,
pseudo-legal move generation, castling detection, move application, turn and
en-passant-square bookkeeping, removal of a piece from a square.  We embed
that interface as an abstract structure Engine and translate the DiceBoard
methods over it, keeping the source names.  Piece types are encoded as in the
board engine (PAWN = 1 .. KING = 6), colors as Bool (WHITE = true).
Squares are integers, file = square mod 8, rank = floor (square / 8),
matching the engine's square arithmetic (including its behaviour on
out-of-range values, which the repository code can produce in corner cases).
-/

namespace DiceChess

def PAWN : Nat := 1
def KNIGHT : Nat := 2
def BISHOP : Nat := 3
def ROOK : Nat := 4
def QUEEN : Nat := 5
def KING : Nat := 6

def WHITE : Bool := true
def BLACK : Bool := false

structure Piece where
  piece_type : Nat
  color : Bool
deriving DecidableEq, Repr

structure Move where
  from_square : Int
  to_square : Int
deriving DecidableEq, Repr

/-- Rank of a square: arithmetic right shift by 3, i.e. floor division by 8. -/
def square_rank (s : Int) : Int := Int.fdiv s 8

/-- File of a square: bitwise and with 7, i.e. euclidean remainder mod 8. -/
def square_file (s : Int) : Int := Int.emod s 8

/-- The engine's square constructor: rank * 8 + file. -/
def chess_square (file rank : Int) : Int := rank * 8 + file

/-- The external board-engine interface consumed by DiceBoard: piece lookup,
pseudo-legal move generation, castling detection, basic move application
(super().push), side to move, and the standard en-passant square.  The
repository does not implement these; they are parameters of the development. -/
structure Engine where
  Position : Type
  piece_at : Position → Int → Option Piece
  pseudo_legal_moves : Position → List Move
  is_castling : Position → Move → Bool
  push : Position → Move → Position
  turn : Position → Bool
  set_turn : Position → Bool → Position
  ep_square : Position → Option Int
  clear_ep_square : Position → Position
  remove_piece_at : Position → Int → Position

/-- The DiceBoard state on top of an engine position: the per-color extended
en-passant right-sets (ep_squares, keyed WHITE/BLACK) and the dice roll. -/
structure DiceBoard (E : Engine) where
  pos : E.Position
  ep_white : List Int
  ep_black : List Int
  dice_roll : List Nat

variable {E : Engine}

/-- self.ep_squares[color]. -/
def ep_squares (b : DiceBoard E) (color : Bool) : List Int :=
  cond color b.ep_white b.ep_black

/-- DiceBoard.copy: the engine position is copied by the engine, the
ep_squares dictionary is deep-copied and the dice list is copied; with value
semantics this rebuilds the record field by field. -/
def copy (b : DiceBoard E) : DiceBoard E :=
  { pos := b.pos
    ep_white := b.ep_white
    ep_black := b.ep_black
    dice_roll := b.dice_roll }

/-- Is there a pawn (of either color) on square s?  Mirrors
piece and piece.piece_type == chess.PAWN. -/
def is_pawn_at (E : Engine) (p : E.Position) (s : Int) : Bool :=
  match E.piece_at p s with
  | some q => q.piece_type == PAWN
  | none => false

/-- The custom en-passant-capture test of DiceBoard.push: the move consumes a
die, moves a pawn, its destination is an active right of the mover's color,
and the destination square is empty. -/
def ep_capture_flag (b : DiceBoard E) (move : Move) (make_changes : Bool) : Bool :=
  make_changes && is_pawn_at E b.pos move.from_square &&
    decide (move.to_square ∈ ep_squares b (E.turn b.pos)) &&
    (E.piece_at b.pos move.to_square).isNone

/-- Square of the pawn captured en passant: one rank behind the destination,
move.to_square + (8 if color == BLACK else -8). -/
def ep_capture_sq (color : Bool) (move : Move) : Int :=
  move.to_square + cond color (-8) 8

/-- Die consumption of DiceBoard.push: self.dice_roll.remove(piece.piece_type)
and, for castling, a further remove(ROOK), both inside try/except ValueError.
If the first removal fails nothing is removed and the rook removal is never
attempted; a failing rook removal leaves the first removal in place
(List.erase is the identity when the element is absent).  The engine's own
push rejects moves whose origin square is empty, so the none case never runs
in real executions; it keeps the function total. -/
def dice_after (dice : List Nat) (piece : Option Piece) (is_castling : Bool) : List Nat :=
  match piece with
  | some q =>
      if q.piece_type ∈ dice then
        (if is_castling then (dice.erase q.piece_type).erase ROOK
         else dice.erase q.piece_type)
      else dice
  | none => dice

/-- Midpoint square of a two-rank pawn advance:
(move.from_square + move.to_square) // 2 (floor division). -/
def mid_sq (move : Move) : Int := Int.fdiv (move.from_square + move.to_square) 2

/-- The adjacency test of DiceBoard.push, evaluated on the position after the
move: an opponent pawn on destination file - 1 or destination file + 1 (kept
on the board) at the destination rank. -/
def has_adjacent_opponent_pawn (E : Engine) (p : E.Position) (move : Move)
    (opponent : Bool) : Bool :=
  let to_file := square_file move.to_square
  let to_rank := square_rank move.to_square
  ([to_file - 1, to_file + 1] : List Int).any (fun side_file =>
    decide (0 ≤ side_file) && decide (side_file ≤ 7) &&
    (match E.piece_at p (chess_square side_file to_rank) with
     | some q => q.piece_type == PAWN && q.color == opponent
     | none => false))

/-- The grant test of DiceBoard.push: a die-consuming pawn move over two
ranks whose midpoint may become a new right for the opponent, provided an
opponent pawn is adjacent on the post-move board and the midpoint is not
already in the opponent's right-set. -/
def grant_flag (b : DiceBoard E) (move : Move) (make_changes : Bool)
    (pos1 : E.Position) (opponent : Bool) : Bool :=
  is_pawn_at E b.pos move.from_square && make_changes &&
    decide ((square_rank move.to_square - square_rank move.from_square).natAbs = 2) &&
    has_adjacent_opponent_pawn E pos1 move opponent &&
    !(decide (mid_sq move ∈ ep_squares b opponent))

/-- DiceBoard.push(move, make_changes): detect and perform the custom
en-passant capture (remove the captured pawn and consume the right), apply
the move through the engine, force the turn back to the mover, clear the
engine's standard en-passant square, consume dice, and grant a new right to
the opponent after a qualifying two-rank pawn advance. -/
def push (b : DiceBoard E) (move : Move) (make_changes : Bool := false) : DiceBoard E :=
  let color := E.turn b.pos
  let epc := ep_capture_flag b move make_changes
  let pos0 := cond epc (E.remove_piece_at b.pos (ep_capture_sq color move)) b.pos
  let ep_color1 := cond epc ((ep_squares b color).erase move.to_square) (ep_squares b color)
  let pos1 := E.clear_ep_square (E.set_turn (E.push pos0 move) color)
  let dice1 :=
    cond make_changes
      (dice_after b.dice_roll (E.piece_at b.pos move.from_square) (E.is_castling b.pos move))
      b.dice_roll
  let ep_opp1 :=
    cond (grant_flag b move make_changes pos1 (!color))
      (ep_squares b (!color) ++ [mid_sq move])
      (ep_squares b (!color))
  { pos := pos1
    dice_roll := dice1
    ep_white := cond color ep_color1 ep_opp1
    ep_black := cond color ep_opp1 ep_color1 }

/-- The pseudo_legal_moves_dice property: all engine pseudo-legal moves plus
the custom en-passant moves derived from the mover's right-set (for each
right, each adjacent file holding a mover's pawn one rank behind, provided
the captured square really holds an opponent pawn). -/
def pseudo_legal_moves_dice (b : DiceBoard E) : List Move :=
  let color := E.turn b.pos
  let opponent := !color
  E.pseudo_legal_moves b.pos ++
    (ep_squares b color).flatMap (fun ep_sq =>
      let ep_rank := square_rank ep_sq
      let ep_file := square_file ep_sq
      let direction : Int := cond color 1 (-1)
      let captured_sq := chess_square ep_file (ep_rank - direction)
      ([(-1 : Int), 1]).filterMap (fun df =>
        let pawn_file := ep_file + df
        if 0 ≤ pawn_file ∧ pawn_file ≤ 7 then
          let pawn_sq := chess_square pawn_file (ep_rank - direction)
          match E.piece_at b.pos pawn_sq with
          | some piece =>
            if piece.piece_type = PAWN ∧ piece.color = color then
              match E.piece_at b.pos captured_sq with
              | some captured =>
                if captured.piece_type = PAWN ∧ captured.color = opponent then
                  some ⟨pawn_sq, ep_sq⟩
                else none
              | none => none
            else none
          | none => none
        else none))

/-- DiceBoard._get_pseudo_moves: the candidate moves compatible with the
dice: non-castling moves whose origin piece type is in the dice roll, and
castling moves when both KING and ROOK are in the dice roll. -/
def _get_pseudo_moves (b : DiceBoard E) : List Move :=
  (pseudo_legal_moves_dice b).filter (fun move =>
    let castling := E.is_castling b.pos move
    (!castling &&
      (match E.piece_at b.pos move.from_square with
       | some piece => decide (piece.piece_type ∈ b.dice_roll)
       | none => false)) ||
    (castling && decide (KING ∈ b.dice_roll) && decide (ROOK ∈ b.dice_roll)))

/-- Chain depth (1 or 2) of a candidate first move with two dice left: 2 for
a castling move; otherwise simulate the move on a copy (consuming the die)
and give depth 2 exactly when the recomputed candidate set is non-empty. -/
def move_count_2 (b : DiceBoard E) (move : Move) : Nat :=
  if E.is_castling b.pos move then 2
  else
    if _get_pseudo_moves (push (copy b) move true) = ([] : List Move) then 1 else 2

/-- max_count of DiceBoard._get_moves_2: the running maximum, starting at 1,
of the per-candidate depths. -/
def max_count_2 (b : DiceBoard E) : Nat :=
  (( _get_pseudo_moves b).map (move_count_2 b)).foldl max 1

/-- DiceBoard._get_moves_2: keep the candidates whose depth equals the
maximal depth, plus every candidate whose destination square holds a king. -/
def _get_moves_2 (b : DiceBoard E) : List Move :=
  let pseudo_moves := _get_pseudo_moves b
  let count_list := pseudo_moves.map (move_count_2 b)
  let max_count := count_list.foldl max 1
  ((pseudo_moves.zip count_list).filter (fun mc =>
      decide (mc.2 = max_count) ||
      (match E.piece_at b.pos mc.1.to_square with
       | some captured => captured.piece_type == KING
       | none => false))).map Prod.fst

/-- Chain depth (1 to 3) of a candidate first move with three dice left,
mirroring the loop of DiceBoard._get_moves_3: a castling first move starts at
2 and becomes 3 when a continuation exists; a non-castling first move is 1
without continuation, and otherwise 2, raised to 3 when some continuation
move is itself castling or leaves a further non-empty candidate set (the
source breaks out of the loop at the first such continuation; List.any has
the same first-witness semantics). -/
def move_count_3 (b : DiceBoard E) (move : Move) : Nat :=
  let board_p1 := push (copy b) move true
  let pseudo_moves_p1 := _get_pseudo_moves board_p1
  if E.is_castling b.pos move then
    if pseudo_moves_p1 = ([] : List Move) then 2 else 3
  else if pseudo_moves_p1 = ([] : List Move) then 1
  else if pseudo_moves_p1.any (fun move_p1 =>
      E.is_castling board_p1.pos move_p1 ||
      !(_get_pseudo_moves (push (copy board_p1) move_p1 true)).isEmpty) then 3
  else 2

/-- max_count of DiceBoard._get_moves_3. -/
def max_count_3 (b : DiceBoard E) : Nat :=
  ((_get_pseudo_moves b).map (move_count_3 b)).foldl max 1

/-- DiceBoard._get_moves_3: keep the candidates whose depth equals the
maximal depth, plus every candidate whose destination square holds a king. -/
def _get_moves_3 (b : DiceBoard E) : List Move :=
  let pseudo_moves := _get_pseudo_moves b
  let count_list := pseudo_moves.map (move_count_3 b)
  let max_count := count_list.foldl max 1
  ((pseudo_moves.zip count_list).filter (fun mc =>
      decide (mc.2 = max_count) ||
      (match E.piece_at b.pos mc.1.to_square with
       | some captured => captured.piece_type == KING
       | none => false))).map Prod.fst

/-- DiceBoard.get_moves, in state-passing form: the second component is the
state as left behind by the call (the selection only reads self; all
simulation happens on copies).  Zero dice yield the empty move list; more
than three dice raise ValueError, modelled as Except.error. -/
def get_moves (b : DiceBoard E) : Except String (List Move) × DiceBoard E :=
  let nDices := b.dice_roll.length
  if nDices = 0 then (Except.ok [], b)
  else if nDices = 1 then (Except.ok (_get_pseudo_moves b), b)
  else if nDices = 2 then (Except.ok (_get_moves_2 b), b)
  else if nDices = 3 then (Except.ok (_get_moves_3 b), b)
  else (Except.error "This class is not coded for more than three dices.", b)

/-- DiceBoard.is_game_over(move): the destination square holds a king (of
either color; the source checks only the piece type). -/
def is_game_over (b : DiceBoard E) (move : Move) : Bool :=
  match E.piece_at b.pos move.to_square with
  | some captured => captured.piece_type == KING
  | none => false

/-- DiceBoard.next_player: clear the mover color's right-set and hand the
turn to the other color. -/
def next_player (b : DiceBoard E) : DiceBoard E :=
  let color := E.turn b.pos
  { pos := E.set_turn b.pos (!color)
    ep_white := cond color [] b.ep_white
    ep_black := cond color b.ep_black []
    dice_roll := b.dice_roll }

/-- Modelled from the specification's words, for comparison with the code:
the destination square currently holds the opposing king, the king of the
color opposite to the side to move. -/
def spec_holds_opposing_king (b : DiceBoard E) (move : Move) : Prop :=
  E.piece_at b.pos move.to_square = some ⟨KING, !E.turn b.pos⟩

/-- Destination square holds a king of either color (what the code tests). -/
def holds_king (b : DiceBoard E) (move : Move) : Prop :=
  ∃ captured, E.piece_at b.pos move.to_square = some captured ∧
    captured.piece_type = KING

/-- Modelled from the specification's words, for comparison with the code:
the set _get_moves_2 should return, namely the candidates at maximal depth
together with the candidates whose destination holds the opposing king. -/
def spec_selected_2 (b : DiceBoard E) (move : Move) : Prop :=
  move ∈ _get_pseudo_moves b ∧
    (move_count_2 b move = max_count_2 b ∨ spec_holds_opposing_king b move)

/-- The extended-en-passant-rights invariant of the specification: each right
belongs to exactly one color's right-set and its square is unoccupied. -/
def rights_invariant (b : DiceBoard E) : Prop :=
  (∀ s ∈ b.ep_white, E.piece_at b.pos s = none ∧ s ∉ b.ep_black) ∧
  (∀ s ∈ b.ep_black, E.piece_at b.pos s = none ∧ s ∉ b.ep_white)

instance (b : DiceBoard E) (move : Move) : Decidable (spec_holds_opposing_king b move) := by
  unfold spec_holds_opposing_king; infer_instance

instance (b : DiceBoard E) (move : Move) : Decidable (holds_king b move) :=
  decidable_of_iff (is_game_over b move = true) (by
    unfold is_game_over holds_king
    cases h : E.piece_at b.pos move.to_square <;> simp)

instance (b : DiceBoard E) (move : Move) : Decidable (spec_selected_2 b move) := by
  unfold spec_selected_2; infer_instance

instance (b : DiceBoard E) : Decidable (rights_invariant b) := by
  unfold rights_invariant; infer_instance

/-- Basic laws any board engine satisfies, stated only as far as the claims
need them: the turn setter and the en-passant clearing do not move pieces,
removal empties exactly its square, and basic move application does not
touch squares other than the origin and the destination of the move (true
of plain placement updates; castling relocations are covered by the claims
only through non-castling moves). -/
structure EngineLaws (E : Engine) : Prop where
  piece_at_set_turn : ∀ p c s, E.piece_at (E.set_turn p c) s = E.piece_at p s
  piece_at_clear_ep : ∀ p s, E.piece_at (E.clear_ep_square p) s = E.piece_at p s
  piece_at_remove : ∀ p s t,
    E.piece_at (E.remove_piece_at p s) t = if t = s then none else E.piece_at p t
  turn_set_turn : ∀ p c, E.turn (E.set_turn p c) = c
  turn_clear_ep : ∀ p, E.turn (E.clear_ep_square p) = E.turn p
  ep_square_clear : ∀ p, E.ep_square (E.clear_ep_square p) = none
  push_frame : ∀ p m s, s ≠ m.from_square → s ≠ m.to_square →
    E.piece_at (E.push p m) s = E.piece_at p s

/-- A small concrete board engine used to run the development on explicit
inputs: the placement is a function from squares to pieces, the position
carries its pseudo-legal move lists for the next three plies explicitly, no
move counts as castling, and move application performs the plain placement
update. -/
structure ToyPos where
  pieces : Int → Option Piece
  tomove : Bool
  eps : Option Int
  moves1 : List Move
  moves2 : List Move
  moves3 : List Move

def ToyEngine : Engine where
  Position := ToyPos
  piece_at := fun p s => p.pieces s
  pseudo_legal_moves := fun p => p.moves1
  is_castling := fun _ _ => false
  push := fun p m =>
    { pieces := fun s =>
        if s = m.to_square then p.pieces m.from_square
        else if s = m.from_square then none
        else p.pieces s
      tomove := !p.tomove
      eps := none
      moves1 := p.moves2
      moves2 := p.moves3
      moves3 := [] }
  turn := ToyPos.tomove
  set_turn := fun p c => { p with tomove := c }
  ep_square := ToyPos.eps
  clear_ep_square := fun p => { p with eps := none }
  remove_piece_at := fun p s => { p with pieces := fun t => if t = s then none else p.pieces t }

/-- Scenario for the two-dice selection: white to move with dice PAWN and
KNIGHT, a knight on 8, a pawn on 11, an enemy pawn on 12, the mover's own
king on 20, and an extended right of the mover on square 20; the engine
offers the knight move 8 to 16, then the pawn move 11 to 19, then nothing. -/
def cb1 : DiceBoard ToyEngine :=
  { pos :=
      { pieces := fun s =>
          if s = 8 then some ⟨KNIGHT, WHITE⟩
          else if s = 11 then some ⟨PAWN, WHITE⟩
          else if s = 12 then some ⟨PAWN, BLACK⟩
          else if s = 20 then some ⟨KING, WHITE⟩
          else none
        tomove := true
        eps := none
        moves1 := [⟨8, 16⟩]
        moves2 := [⟨11, 19⟩]
        moves3 := [] }
    ep_white := [20]
    ep_black := []
    dice_roll := [PAWN, KNIGHT] }

/-- Scenario for the rights invariant: white to move with a queen on 8 and
an extended right of black on the empty square 16. -/
def cb7 : DiceBoard ToyEngine :=
  { pos :=
      { pieces := fun s => if s = 8 then some ⟨QUEEN, WHITE⟩ else none
        tomove := true
        eps := none
        moves1 := []
        moves2 := []
        moves3 := [] }
    ep_white := []
    ep_black := [16]
    dice_roll := [QUEEN] }

/-- Scenario for the custom en-passant capture: white to move, a white pawn
on 13, a black pawn on 12, an extended right of white on the empty square
20; the capture move is 13 to 20 and the captured pawn stands on 12. -/
def cb3 : DiceBoard ToyEngine :=
  { pos :=
      { pieces := fun s =>
          if s = 13 then some ⟨PAWN, WHITE⟩
          else if s = 12 then some ⟨PAWN, BLACK⟩
          else none
        tomove := true
        eps := none
        moves1 := []
        moves2 := []
        moves3 := [] }
    ep_white := [20]
    ep_black := []
    dice_roll := [PAWN] }

/-- Scenario for granting a right: white to move, a white pawn on 12
advancing two ranks to 28, a black pawn adjacent on 29. -/
def cb4 : DiceBoard ToyEngine :=
  { pos :=
      { pieces := fun s =>
          if s = 12 then some ⟨PAWN, WHITE⟩
          else if s = 29 then some ⟨PAWN, BLACK⟩
          else none
        tomove := true
        eps := none
        moves1 := []
        moves2 := []
        moves3 := [] }
    ep_white := []
    ep_black := []
    dice_roll := [PAWN] }

/-- Scenario for the turn change: white to move, one right per color. -/
def cb5 : DiceBoard ToyEngine :=
  { pos :=
      { pieces := fun _ => none
        tomove := true
        eps := none
        moves1 := []
        moves2 := []
        moves3 := [] }
    ep_white := [3]
    ep_black := [4]
    dice_roll := [KNIGHT] }

/-- Scenario for the no-consumption frame: white to move, a knight on 8, a
standard en-passant square set in the engine, one right per color. -/
def cb10 : DiceBoard ToyEngine :=
  { pos :=
      { pieces := fun s => if s = 8 then some ⟨KNIGHT, WHITE⟩ else none
        tomove := true
        eps := some 99
        moves1 := []
        moves2 := []
        moves3 := [] }
    ep_white := [1]
    ep_black := [2]
    dice_roll := [ROOK] }

/-- Empty-dice scenario. -/
def cb8a : DiceBoard ToyEngine :=
  { pos :=
      { pieces := fun _ => none
        tomove := true
        eps := none
        moves1 := []
        moves2 := []
        moves3 := [] }
    ep_white := []
    ep_black := []
    dice_roll := [] }

/-- Four-dice scenario. -/
def cb8b : DiceBoard ToyEngine :=
  { pos :=
      { pieces := fun _ => none
        tomove := true
        eps := none
        moves1 := []
        moves2 := []
        moves3 := [] }
    ep_white := []
    ep_black := []
    dice_roll := [PAWN, PAWN, PAWN, PAWN] }

/-- Three-dice scenario: a white pawn on 8 that can chain three single
advances 8 to 16 to 24 to 32, with dice PAWN, PAWN, PAWN. -/
def cbc2 : DiceBoard ToyEngine :=
  { pos :=
      { pieces := fun s => if s = 8 then some ⟨PAWN, WHITE⟩ else none
        tomove := true
        eps := none
        moves1 := [⟨8, 16⟩]
        moves2 := [⟨16, 24⟩]
        moves3 := [⟨24, 32⟩] }
    ep_white := []
    ep_black := []
    dice_roll := [PAWN, PAWN, PAWN] }

/-! ### Helper lemmas -/

theorem copy_eq (b : DiceBoard E) : copy b = b := rfl

theorem foldl_max_init_le (l : List Nat) (a : Nat) : a ≤ l.foldl max a := by
  induction l generalizing a with
  | nil => exact le_refl a
  | cons x xs ih => exact le_trans (le_max_left a x) (ih (max a x))

theorem le_foldl_max_of_mem {x : Nat} {l : List Nat} (a : Nat) (h : x ∈ l) :
    x ≤ l.foldl max a := by
  induction l generalizing a with
  | nil => cases h
  | cons y ys ih =>
    rcases List.mem_cons.1 h with rfl | h2
    · exact le_trans (le_max_right a x) (foldl_max_init_le ys (max a x))
    · exact ih (max a y) h2

theorem foldl_max_le {l : List Nat} {a c : Nat} (h : a ≤ c) (h2 : ∀ x ∈ l, x ≤ c) :
    l.foldl max a ≤ c := by
  induction l generalizing a with
  | nil => exact h
  | cons y ys ih =>
    exact ih (max_le h (h2 y (List.mem_cons_self y ys)))
      (fun x hx => h2 x (List.mem_cons_of_mem y hx))

theorem zip_map_self {α β : Type _} (l : List α) (f : α → β) :
    l.zip (l.map f) = l.map (fun a => (a, f a)) := by
  induction l with
  | nil => rfl
  | cons x xs ih => simp [ih]

theorem mem_filter_map_fst {α β : Type _} (l : List α) (f : α → β) (p : α × β → Bool) (x : α) :
    x ∈ ((l.map (fun a => (a, f a))).filter p).map Prod.fst ↔ x ∈ l ∧ p (x, f x) = true := by
  induction l with
  | nil => simp
  | cons y ys ih =>
    by_cases hp : p (y, f y) = true
    · simp only [List.map_cons, List.filter_cons, hp, if_pos, List.map_cons, List.mem_cons, ih]
      constructor
      · rintro (rfl | ⟨h1, h2⟩)
        · exact ⟨Or.inl rfl, hp⟩
        · exact ⟨Or.inr h1, h2⟩
      · rintro ⟨rfl | h1, h2⟩
        · exact Or.inl rfl
        · exact Or.inr ⟨h1, h2⟩
    · simp only [List.map_cons, List.filter_cons, hp, List.mem_cons, ih, if_neg,
        Bool.not_eq_true]
      constructor
      · rintro ⟨h1, h2⟩
        exact ⟨Or.inr h1, h2⟩
      · rintro ⟨rfl | h1, h2⟩
        · exact absurd h2 hp
        · exact ⟨h1, h2⟩

theorem is_game_over_iff (b : DiceBoard E) (move : Move) :
    is_game_over b move = true ↔ holds_king b move := by
  unfold is_game_over holds_king
  cases h : E.piece_at b.pos move.to_square <;> simp [h]

theorem move_count_2_eq_two_iff (b : DiceBoard E) (move : Move) :
    move_count_2 b move = 2 ↔
      (E.is_castling b.pos move = true ∨
        _get_pseudo_moves (push (copy b) move true) ≠ []) := by
  unfold move_count_2
  by_cases hc : E.is_castling b.pos move
  · simp [hc]
  · simp only [hc, if_false, Bool.false_eq_true, false_or]
    by_cases h1 : _get_pseudo_moves (push (copy b) move true) = ([] : List Move)
    · simp [h1]
    · simp [h1]

theorem move_count_2_cases (b : DiceBoard E) (move : Move) :
    move_count_2 b move = 1 ∨ move_count_2 b move = 2 := by
  unfold move_count_2
  by_cases hc : E.is_castling b.pos move
  · simp [hc]
  · by_cases h1 : _get_pseudo_moves (push (copy b) move true) = ([] : List Move) <;>
      simp [hc, h1]

theorem mem_get_moves_2 (b : DiceBoard E) (move : Move) :
    move ∈ _get_moves_2 b ↔
      move ∈ _get_pseudo_moves b ∧
        (move_count_2 b move = max_count_2 b ∨ holds_king b move) := by
  unfold _get_moves_2
  dsimp only
  rw [zip_map_self, mem_filter_map_fst]
  rw [show ((_get_pseudo_moves b).map (move_count_2 b)).foldl max 1 = max_count_2 b from rfl]
  constructor
  · rintro ⟨h1, h2⟩
    refine ⟨h1, ?_⟩
    simp only [Bool.or_eq_true, decide_eq_true_eq] at h2
    rcases h2 with h2 | h2
    · exact Or.inl h2
    · exact Or.inr ((is_game_over_iff b move).1 h2)
  · rintro ⟨h1, h2⟩
    refine ⟨h1, ?_⟩
    simp only [Bool.or_eq_true, decide_eq_true_eq]
    rcases h2 with h2 | h2
    · exact Or.inl h2
    · exact Or.inr ((is_game_over_iff b move).2 h2)

theorem not_isEmpty_iff {α : Type _} (l : List α) : (!l.isEmpty) = true ↔ l ≠ [] := by
  cases l <;> simp

theorem move_count_3_values (b : DiceBoard E) (move : Move) :
    move_count_3 b move = 1 ∨ move_count_3 b move = 2 ∨ move_count_3 b move = 3 := by
  unfold move_count_3
  dsimp only
  by_cases hc : E.is_castling b.pos move = true <;>
    by_cases h1 : _get_pseudo_moves (push (copy b) move true) = ([] : List Move)
  · rw [if_pos hc, if_pos h1]; exact Or.inr (Or.inl rfl)
  · rw [if_pos hc, if_neg h1]; exact Or.inr (Or.inr rfl)
  · rw [if_neg hc, if_pos h1]; exact Or.inl rfl
  · rw [if_neg hc, if_neg h1]
    by_cases h2 : ((_get_pseudo_moves (push (copy b) move true)).any (fun move_p1 =>
        E.is_castling (push (copy b) move true).pos move_p1 ||
        !(_get_pseudo_moves (push (copy (push (copy b) move true)) move_p1 true)).isEmpty)) = true
    · rw [if_pos h2]; exact Or.inr (Or.inr rfl)
    · rw [if_neg h2]; exact Or.inr (Or.inl rfl)

theorem move_count_3_ge_two_iff (b : DiceBoard E) (move : Move) :
    2 ≤ move_count_3 b move ↔
      (E.is_castling b.pos move = true ∨
        _get_pseudo_moves (push (copy b) move true) ≠ []) := by
  unfold move_count_3
  dsimp only
  by_cases hc : E.is_castling b.pos move = true <;>
    by_cases h1 : _get_pseudo_moves (push (copy b) move true) = ([] : List Move)
  · rw [if_pos hc, if_pos h1]; exact iff_of_true (by decide) (Or.inl hc)
  · rw [if_pos hc, if_neg h1]; exact iff_of_true (by decide) (Or.inl hc)
  · rw [if_neg hc, if_pos h1]
    exact iff_of_false (by decide) (by rintro (h | h); exacts [hc h, h h1])
  · rw [if_neg hc, if_neg h1]
    by_cases h2 : ((_get_pseudo_moves (push (copy b) move true)).any (fun move_p1 =>
        E.is_castling (push (copy b) move true).pos move_p1 ||
        !(_get_pseudo_moves (push (copy (push (copy b) move true)) move_p1 true)).isEmpty)) = true
    · rw [if_pos h2]; exact iff_of_true (by decide) (Or.inr h1)
    · rw [if_neg h2]; exact iff_of_true (by decide) (Or.inr h1)

theorem move_count_3_eq_three_iff (b : DiceBoard E) (move : Move) :
    move_count_3 b move = 3 ↔
      (_get_pseudo_moves (push (copy b) move true) ≠ [] ∧
        (E.is_castling b.pos move = true ∨
          ∃ move_p1 ∈ _get_pseudo_moves (push (copy b) move true),
            E.is_castling (push (copy b) move true).pos move_p1 = true ∨
            _get_pseudo_moves (push (copy (push (copy b) move true)) move_p1 true) ≠ [])) := by
  unfold move_count_3
  dsimp only
  by_cases hc : E.is_castling b.pos move = true <;>
    by_cases h1 : _get_pseudo_moves (push (copy b) move true) = ([] : List Move)
  · rw [if_pos hc, if_pos h1]
    exact iff_of_false (by decide) (by rintro ⟨h, -⟩; exact h h1)
  · rw [if_pos hc, if_neg h1]
    exact iff_of_true rfl ⟨h1, Or.inl hc⟩
  · rw [if_neg hc, if_pos h1]
    exact iff_of_false (by decide) (by rintro ⟨h, -⟩; exact h h1)
  · rw [if_neg hc, if_neg h1]
    by_cases h2 : ((_get_pseudo_moves (push (copy b) move true)).any (fun move_p1 =>
        E.is_castling (push (copy b) move true).pos move_p1 ||
        !(_get_pseudo_moves (push (copy (push (copy b) move true)) move_p1 true)).isEmpty)) = true
    · rw [if_pos h2]
      obtain ⟨x, hx, hor⟩ := List.any_eq_true.1 h2
      refine iff_of_true rfl ⟨h1, Or.inr ⟨x, hx, ?_⟩⟩
      rw [Bool.or_eq_true] at hor
      rcases hor with h | h
      · exact Or.inl h
      · exact Or.inr ((not_isEmpty_iff _).1 h)
    · rw [if_neg h2]
      refine iff_of_false (by decide) ?_
      rintro ⟨-, h3 | ⟨x, hx, h3⟩⟩
      · exact hc h3
      · refine h2 (List.any_eq_true.2 ⟨x, hx, ?_⟩)
        rw [Bool.or_eq_true]
        rcases h3 with h3 | h3
        · exact Or.inl h3
        · exact Or.inr ((not_isEmpty_iff _).2 h3)

theorem mem_get_moves_3 (b : DiceBoard E) (move : Move) :
    move ∈ _get_moves_3 b ↔
      move ∈ _get_pseudo_moves b ∧
        (move_count_3 b move = max_count_3 b ∨ holds_king b move) := by
  unfold _get_moves_3
  dsimp only
  rw [zip_map_self, mem_filter_map_fst]
  rw [show ((_get_pseudo_moves b).map (move_count_3 b)).foldl max 1 = max_count_3 b from rfl]
  constructor
  · rintro ⟨h1, h2⟩
    refine ⟨h1, ?_⟩
    simp only [Bool.or_eq_true, decide_eq_true_eq] at h2
    rcases h2 with h2 | h2
    · exact Or.inl h2
    · exact Or.inr ((is_game_over_iff b move).1 h2)
  · rintro ⟨h1, h2⟩
    refine ⟨h1, ?_⟩
    simp only [Bool.or_eq_true, decide_eq_true_eq]
    rcases h2 with h2 | h2
    · exact Or.inl h2
    · exact Or.inr ((is_game_over_iff b move).2 h2)

theorem push_pos (b : DiceBoard E) (move : Move) (mc : Bool) :
    (push b move mc).pos =
      E.clear_ep_square (E.set_turn (E.push
        (cond (ep_capture_flag b move mc)
          (E.remove_piece_at b.pos (ep_capture_sq (E.turn b.pos) move)) b.pos) move)
        (E.turn b.pos)) := rfl

theorem push_dice (b : DiceBoard E) (move : Move) (mc : Bool) :
    (push b move mc).dice_roll =
      cond mc
        (dice_after b.dice_roll (E.piece_at b.pos move.from_square) (E.is_castling b.pos move))
        b.dice_roll := rfl

theorem push_ep_mover (b : DiceBoard E) (move : Move) (mc : Bool) :
    ep_squares (push b move mc) (E.turn b.pos) =
      cond (ep_capture_flag b move mc)
        ((ep_squares b (E.turn b.pos)).erase move.to_square)
        (ep_squares b (E.turn b.pos)) := by
  unfold push ep_squares
  dsimp only
  cases h : E.turn b.pos <;> simp [h]

theorem push_ep_opp (b : DiceBoard E) (move : Move) (mc : Bool) :
    ep_squares (push b move mc) (!(E.turn b.pos)) =
      cond (grant_flag b move mc (push b move mc).pos (!(E.turn b.pos)))
        (ep_squares b (!(E.turn b.pos)) ++ [mid_sq move])
        (ep_squares b (!(E.turn b.pos))) := by
  unfold push ep_squares
  dsimp only
  cases h : E.turn b.pos <;> simp [push, h]

theorem grant_flag_iff (b : DiceBoard E) (move : Move) (mc : Bool)
    (pos1 : E.Position) (opp : Bool) :
    grant_flag b move mc pos1 opp = true ↔
      (is_pawn_at E b.pos move.from_square = true ∧ mc = true ∧
        (square_rank move.to_square - square_rank move.from_square).natAbs = 2 ∧
        has_adjacent_opponent_pawn E pos1 move opp = true ∧
        mid_sq move ∉ ep_squares b opp) := by
  unfold grant_flag
  simp only [Bool.and_eq_true, decide_eq_true_eq, Bool.not_eq_true',
    decide_eq_false_iff_not]
  tauto

theorem ep_capture_flag_no_changes (b : DiceBoard E) (move : Move) :
    ep_capture_flag b move false = false := rfl

theorem grant_flag_no_changes (b : DiceBoard E) (move : Move)
    (pos1 : E.Position) (opp : Bool) :
    grant_flag b move false pos1 opp = false := by
  unfold grant_flag
  simp

theorem toy_laws : EngineLaws ToyEngine := by
  constructor
  · intro p c s; rfl
  · intro p s; rfl
  · intro p s t; rfl
  · intro p c; rfl
  · intro p; rfl
  · intro p; rfl
  · intro p m s h1 h2
    show (if s = m.to_square then p.pieces m.from_square
          else if s = m.from_square then none else p.pieces s) = p.pieces s
    rw [if_neg h2, if_neg h1]

theorem get_moves_snd (b : DiceBoard E) : (get_moves b).2 = b := by
  unfold get_moves
  dsimp only
  split
  · rfl
  split
  · rfl
  split
  · rfl
  split
  · rfl
  · rfl

/-! ### Claim theorems -/

/-- C1 (amended): with a dice multiset of size 2, each candidate gets depth 2
exactly when it is a castling move or when, after applying it on an
independent copy with die consumption, the recomputed candidate set is
non-empty, and depth 1 otherwise; _get_moves_2 returns exactly the candidates
whose depth equals the maximal depth over all candidates (minimum 1) plus
every candidate whose destination square holds a king of either color (the
code does not check the king's color); in particular, if any candidate has a
continuation, no depth-1 move is returned unless its destination holds a
king. -/
theorem C1_selection_two_dice (E : Engine) (b : DiceBoard E) (move : Move) :
    (move_count_2 b move = 2 ↔
      (E.is_castling b.pos move = true ∨
        _get_pseudo_moves (push (copy b) move true) ≠ [])) ∧
    (move_count_2 b move = 1 ∨ move_count_2 b move = 2) ∧
    (move ∈ _get_pseudo_moves b → move_count_2 b move ≤ max_count_2 b) ∧
    1 ≤ max_count_2 b ∧
    (move ∈ _get_moves_2 b ↔
      move ∈ _get_pseudo_moves b ∧
        (move_count_2 b move = max_count_2 b ∨ holds_king b move)) ∧
    ((∃ m1 ∈ _get_pseudo_moves b, move_count_2 b m1 = 2) →
      move ∈ _get_moves_2 b → move_count_2 b move = 2 ∨ holds_king b move) := by
  refine ⟨move_count_2_eq_two_iff b move, move_count_2_cases b move, ?_, ?_, ?_, ?_⟩
  · intro hm
    exact le_foldl_max_of_mem 1 (List.mem_map.2 ⟨move, hm, rfl⟩)
  · exact foldl_max_init_le _ 1
  · exact mem_get_moves_2 b move
  · rintro ⟨m1, hm1, hc1⟩ hmem
    have hge : 2 ≤ max_count_2 b := by
      have h2 := le_foldl_max_of_mem (x := move_count_2 b m1)
        (l := (_get_pseudo_moves b).map (move_count_2 b)) 1
        (List.mem_map.2 ⟨m1, hm1, rfl⟩)
      rw [hc1] at h2
      exact h2
    have hle : max_count_2 b ≤ 2 := by
      refine foldl_max_le (by omega) ?_
      intro x hx
      obtain ⟨m2, _, rfl⟩ := List.mem_map.1 hx
      rcases move_count_2_cases b m2 with h | h <;> omega
    rcases (mem_get_moves_2 b move).1 hmem with ⟨hp, h | h⟩
    · left; omega
    · exact Or.inr h

/-- C1 counterexample: in the state cb1 the claim as stated fails: the move
from 11 to 20 is returned by _get_moves_2 although its depth is 1, another
candidate has depth 2, and its destination holds the mover's own king, not
the opposing one — so it is not in the set the specification describes. -/
theorem C1_counterexample :
    (⟨11, 20⟩ : Move) ∈ _get_moves_2 cb1 ∧
      move_count_2 cb1 ⟨11, 20⟩ = 1 ∧ max_count_2 cb1 = 2 ∧
      ¬ spec_selected_2 cb1 ⟨11, 20⟩ :=
  ⟨by decide, by decide, by decide, by decide⟩

/-- C1 witness: the amended theorem applied to the concrete state cb1 and
the knight move from 8 to 16 of depth 2. -/
theorem C1_selection_two_dice_witness :
    (∃ m1 ∈ _get_pseudo_moves cb1, move_count_2 cb1 m1 = 2) ∧
      ((⟨8, 16⟩ : Move) ∈ _get_moves_2 cb1) ∧
      (move_count_2 cb1 ⟨8, 16⟩ = 2 ∨ holds_king cb1 ⟨8, 16⟩) :=
  ⟨⟨⟨8, 16⟩, by decide, by decide⟩, by decide,
    (C1_selection_two_dice ToyEngine cb1 ⟨8, 16⟩).2.2.2.2.2
      ⟨⟨8, 16⟩, by decide, by decide⟩ (by decide)⟩

/-- C2: with a dice multiset of size 3, a castling candidate starts at depth
2 and is raised to 3 exactly when a continuation exists; a non-castling
candidate has depth at least 2 exactly when a continuation exists, and depth
3 exactly when some continuation move is itself castling or yields a further
non-empty continuation (List.any confirms 3 at the first such continuation,
as the source's loop break does); depths stay in 1..3, are bounded by the
maximum, and _get_moves_3 returns exactly the candidates at the maximal
depth plus every king-capturing candidate.  Depths are monotone: a candidate
with a non-empty continuation never has depth below 2. -/
theorem C2_selection_three_dice (E : Engine) (b : DiceBoard E) (move : Move) :
    (move_count_3 b move = 3 ↔
      (_get_pseudo_moves (push (copy b) move true) ≠ [] ∧
        (E.is_castling b.pos move = true ∨
          ∃ move_p1 ∈ _get_pseudo_moves (push (copy b) move true),
            E.is_castling (push (copy b) move true).pos move_p1 = true ∨
            _get_pseudo_moves (push (copy (push (copy b) move true)) move_p1 true) ≠ []))) ∧
    (2 ≤ move_count_3 b move ↔
      (E.is_castling b.pos move = true ∨
        _get_pseudo_moves (push (copy b) move true) ≠ [])) ∧
    (move_count_3 b move = 1 ∨ move_count_3 b move = 2 ∨ move_count_3 b move = 3) ∧
    (move ∈ _get_pseudo_moves b → move_count_3 b move ≤ max_count_3 b) ∧
    (move ∈ _get_moves_3 b ↔
      move ∈ _get_pseudo_moves b ∧
        (move_count_3 b move = max_count_3 b ∨ holds_king b move)) := by
  refine ⟨move_count_3_eq_three_iff b move, move_count_3_ge_two_iff b move,
    move_count_3_values b move, ?_, mem_get_moves_3 b move⟩
  intro hm
  exact le_foldl_max_of_mem 1 (List.mem_map.2 ⟨move, hm, rfl⟩)

/-- C9 (amended): is_game_over is true exactly when the destination square
holds a king of either color; the source does not check the king's color. -/
theorem C9_is_game_over_characterization (E : Engine) (b : DiceBoard E) (move : Move) :
    is_game_over b move = true ↔ holds_king b move :=
  is_game_over_iff b move

/-- C9 counterexample: in the state cb1 the move from 11 to 20 lands on the
mover's own king; is_game_over reports true although the destination does
not hold the opposing king, so the claim as stated fails. -/
theorem C9_counterexample :
    is_game_over cb1 ⟨11, 20⟩ = true ∧ ¬ spec_holds_opposing_king cb1 ⟨11, 20⟩ :=
  ⟨by decide, by decide⟩

/-- C2 witness: the three-dice theorem applied to the concrete state cbc2
and the pawn move from 8 to 16, whose chain reaches depth 3. -/
theorem C2_selection_three_dice_witness :
    move_count_3 cbc2 ⟨8, 16⟩ ≤ max_count_3 cbc2 ∧ 2 ≤ move_count_3 cbc2 ⟨8, 16⟩ :=
  ⟨(C2_selection_three_dice ToyEngine cbc2 ⟨8, 16⟩).2.2.2.1 (by decide),
   (C2_selection_three_dice ToyEngine cbc2 ⟨8, 16⟩).2.1.2 (Or.inr (by decide))⟩

/-- C3: a die-consuming pawn move onto an unoccupied square that is an
active extended right of the mover removes the pawn one rank behind the
destination (the capture square) and removes the consumed right from the
mover's right-set, so a granted right (no duplicates) is capturable exactly
once.  The engine laws say that the engine's own move application does not
touch squares other than the move's origin and destination. -/
theorem C3_push_en_passant_capture (E : Engine) (hL : EngineLaws E)
    (b : DiceBoard E) (move : Move)
    (hpawn : is_pawn_at E b.pos move.from_square = true)
    (hmem : move.to_square ∈ ep_squares b (E.turn b.pos))
    (hempty : E.piece_at b.pos move.to_square = none)
    (hfrom : ep_capture_sq (E.turn b.pos) move ≠ move.from_square) :
    E.piece_at (push b move true).pos (ep_capture_sq (E.turn b.pos) move) = none ∧
    ep_squares (push b move true) (E.turn b.pos) =
      (ep_squares b (E.turn b.pos)).erase move.to_square ∧
    ((ep_squares b (E.turn b.pos)).Nodup →
      move.to_square ∉ ep_squares (push b move true) (E.turn b.pos)) := by
  have hflag : ep_capture_flag b move true = true := by
    unfold ep_capture_flag
    rw [hpawn, hempty]
    simp [hmem]
  have hcap_ne_to : ep_capture_sq (E.turn b.pos) move ≠ move.to_square := by
    unfold ep_capture_sq
    cases E.turn b.pos <;> simp
  have hmover : ep_squares (push b move true) (E.turn b.pos) =
      (ep_squares b (E.turn b.pos)).erase move.to_square := by
    rw [push_ep_mover, hflag, cond_true]
  refine ⟨?_, hmover, ?_⟩
  · rw [push_pos, hL.piece_at_clear_ep, hL.piece_at_set_turn, hflag,
      hL.push_frame _ _ _ hfrom hcap_ne_to, cond_true, hL.piece_at_remove]
    simp
  · intro hnd hmem2
    rw [hmover] at hmem2
    exact ((List.Nodup.mem_erase_iff hnd).1 hmem2).1 rfl

/-- C3 witness: the capture theorem applied to the concrete state cb3 and
the capture move from 13 onto the right square 20; the captured pawn on 12
disappears and the right is consumed. -/
theorem C3_push_en_passant_capture_witness :
    EngineLaws ToyEngine ∧
    ToyEngine.piece_at (push cb3 ⟨13, 20⟩ true).pos
      (ep_capture_sq (ToyEngine.turn cb3.pos) ⟨13, 20⟩) = none ∧
    ep_squares (push cb3 ⟨13, 20⟩ true) (ToyEngine.turn cb3.pos) =
      (ep_squares cb3 (ToyEngine.turn cb3.pos)).erase 20 ∧
    (⟨13, 20⟩ : Move).to_square ∉
      ep_squares (push cb3 ⟨13, 20⟩ true) (ToyEngine.turn cb3.pos) :=
  ⟨toy_laws,
   (C3_push_en_passant_capture ToyEngine toy_laws cb3 ⟨13, 20⟩
      (by decide) (by decide) (by decide) (by decide)).1,
   (C3_push_en_passant_capture ToyEngine toy_laws cb3 ⟨13, 20⟩
      (by decide) (by decide) (by decide) (by decide)).2.1,
   (C3_push_en_passant_capture ToyEngine toy_laws cb3 ⟨13, 20⟩
      (by decide) (by decide) (by decide) (by decide)).2.2 (by decide)⟩

/-- C4: after a die-consuming pawn move over two ranks, the midpoint square
is appended to the opponent's right-set exactly when an opponent pawn is
adjacent on the destination file plus or minus 1 at the destination rank (on
the post-move board) and the midpoint is not already present; any other move
leaves the opponent's right-set unchanged; the mover's right-set never
grows; and the opponent's right-set stays duplicate-free. -/
theorem C4_push_grant_rights (E : Engine) (b : DiceBoard E) (move : Move) :
    (is_pawn_at E b.pos move.from_square = true →
      (square_rank move.to_square - square_rank move.from_square).natAbs = 2 →
      ep_squares (push b move true) (!(E.turn b.pos)) =
        (if has_adjacent_opponent_pawn E (push b move true).pos move (!(E.turn b.pos)) = true ∧
            mid_sq move ∉ ep_squares b (!(E.turn b.pos))
         then ep_squares b (!(E.turn b.pos)) ++ [mid_sq move]
         else ep_squares b (!(E.turn b.pos)))) ∧
    (¬ (is_pawn_at E b.pos move.from_square = true ∧
        (square_rank move.to_square - square_rank move.from_square).natAbs = 2) →
      ep_squares (push b move true) (!(E.turn b.pos)) = ep_squares b (!(E.turn b.pos))) ∧
    (ep_squares (push b move true) (E.turn b.pos) ⊆ ep_squares b (E.turn b.pos)) ∧
    ((ep_squares b (!(E.turn b.pos))).Nodup →
      (ep_squares (push b move true) (!(E.turn b.pos))).Nodup) := by
  refine ⟨?_, ?_, ?_, ?_⟩
  · intro hpawn hdiff
    rw [push_ep_opp]
    by_cases hg : grant_flag b move true (push b move true).pos (!(E.turn b.pos)) = true
    · rw [hg, cond_true, if_pos]
      obtain ⟨-, -, -, hadj, hmem⟩ := (grant_flag_iff b move true _ _).1 hg
      exact ⟨hadj, hmem⟩
    · rw [Bool.not_eq_true] at hg
      rw [hg, cond_false, if_neg]
      rintro ⟨hadj, hmem⟩
      rw [← Bool.not_eq_true] at hg
      exact hg ((grant_flag_iff b move true _ _).2 ⟨hpawn, rfl, hdiff, hadj, hmem⟩)
  · intro hnot
    rw [push_ep_opp]
    by_cases hg : grant_flag b move true (push b move true).pos (!(E.turn b.pos)) = true
    · obtain ⟨hpawn, -, hdiff, -, -⟩ := (grant_flag_iff b move true _ _).1 hg
      exact absurd ⟨hpawn, hdiff⟩ hnot
    · rw [Bool.not_eq_true] at hg
      rw [hg, cond_false]
  · rw [push_ep_mover]
    cases ep_capture_flag b move true with
    | true => exact fun x hx => List.mem_of_mem_erase hx
    | false => exact fun x hx => hx
  · intro hnd
    rw [push_ep_opp]
    by_cases hg : grant_flag b move true (push b move true).pos (!(E.turn b.pos)) = true
    · obtain ⟨-, -, -, -, hmem⟩ := (grant_flag_iff b move true _ _).1 hg
      rw [hg, cond_true]
      simp [List.nodup_append, hnd, hmem]
    · rw [Bool.not_eq_true] at hg
      rw [hg, cond_false]
      exact hnd

/-- C4 witness: the grant theorem applied to the concrete state cb4 and the
double advance from 12 to 28 with a black pawn adjacent on 29: black's
right-set gains the midpoint square 20. -/
theorem C4_push_grant_rights_witness :
    (ep_squares (push cb4 ⟨12, 28⟩ true) (!(ToyEngine.turn cb4.pos)) =
      (if has_adjacent_opponent_pawn ToyEngine (push cb4 ⟨12, 28⟩ true).pos ⟨12, 28⟩
            (!(ToyEngine.turn cb4.pos)) = true ∧
          mid_sq ⟨12, 28⟩ ∉ ep_squares cb4 (!(ToyEngine.turn cb4.pos))
       then ep_squares cb4 (!(ToyEngine.turn cb4.pos)) ++ [mid_sq ⟨12, 28⟩]
       else ep_squares cb4 (!(ToyEngine.turn cb4.pos)))) ∧
    ep_squares (push cb4 ⟨12, 28⟩ true) (!(ToyEngine.turn cb4.pos)) = [20] :=
  ⟨(C4_push_grant_rights ToyEngine cb4 ⟨12, 28⟩).1 (by decide) (by decide),
   by decide⟩

/-- C5: next_player empties the mover's right-set, leaves the opponent's
right-set, the dice and the piece placement unchanged, and flips the side to
move. -/
theorem C5_next_player_effects (E : Engine) (hL : EngineLaws E) (b : DiceBoard E) :
    ep_squares (next_player b) (E.turn b.pos) = [] ∧
    ep_squares (next_player b) (!(E.turn b.pos)) = ep_squares b (!(E.turn b.pos)) ∧
    E.turn (next_player b).pos = !(E.turn b.pos) ∧
    (next_player b).dice_roll = b.dice_roll ∧
    (∀ s, E.piece_at (next_player b).pos s = E.piece_at b.pos s) := by
  refine ⟨?_, ?_, hL.turn_set_turn _ _, rfl, fun s => hL.piece_at_set_turn _ _ _⟩
  · unfold next_player ep_squares
    dsimp only
    cases h : E.turn b.pos <;> simp [h]
  · unfold next_player ep_squares
    dsimp only
    cases h : E.turn b.pos <;> simp [h]

/-- C5 witness: the turn-change theorem applied to the concrete state cb5. -/
theorem C5_next_player_effects_witness :
    EngineLaws ToyEngine ∧
    ep_squares (next_player cb5) (ToyEngine.turn cb5.pos) = [] ∧
    ep_squares (next_player cb5) (!(ToyEngine.turn cb5.pos)) =
      ep_squares cb5 (!(ToyEngine.turn cb5.pos)) ∧
    ToyEngine.turn (next_player cb5).pos = !(ToyEngine.turn cb5.pos) :=
  ⟨toy_laws, (C5_next_player_effects ToyEngine toy_laws cb5).1,
   (C5_next_player_effects ToyEngine toy_laws cb5).2.1,
   (C5_next_player_effects ToyEngine toy_laws cb5).2.2.1⟩

/-- C6: move selection is observationally pure: the state returned along
with the move list is the argument state itself, for any position, dice
multiset and right-sets; all lookahead happens on copies. -/
theorem C6_get_moves_pure (E : Engine) (b : DiceBoard E) :
    (get_moves b).2 = b ∧
    (get_moves b).2.pos = b.pos ∧
    (get_moves b).2.ep_white = b.ep_white ∧
    (get_moves b).2.ep_black = b.ep_black ∧
    (get_moves b).2.dice_roll = b.dice_roll := by
  have h : (get_moves b).2 = b := get_moves_snd b
  exact ⟨h, by rw [h], by rw [h], by rw [h], by rw [h]⟩

/-- C7 counterexample: the state cb7 satisfies the rights invariant, yet
applying the queen move from 8 onto the black right square 16 (with die
consumption) leaves black's right-set holding an occupied square, so the
invariant is not preserved by every applyMove. -/
theorem C7_counterexample :
    rights_invariant cb7 ∧ ¬ rights_invariant (push cb7 ⟨8, 16⟩ true) :=
  ⟨by decide, by decide⟩

/-- C7 (amended): the rights invariant is preserved by next_player, and move
selection leaves the state (hence the invariant) unchanged; applyMove does
not preserve it in general, because a move can land on a square held as a
right by the opponent. -/
theorem C7_invariant_endTurn_selection (E : Engine) (hL : EngineLaws E)
    (b : DiceBoard E) (hinv : rights_invariant b) :
    rights_invariant (next_player b) ∧ (get_moves b).2 = b := by
  refine ⟨?_, get_moves_snd b⟩
  obtain ⟨hw, hb2⟩ := hinv
  unfold rights_invariant next_player
  dsimp only
  cases h : E.turn b.pos
  · refine ⟨fun s hs => ?_, fun s hs => ?_⟩
    · rw [cond_false] at hs
      rw [cond_false]
      exact ⟨(hL.piece_at_set_turn b.pos _ s).trans (hw s hs).1, List.not_mem_nil s⟩
    · rw [cond_false] at hs
      cases hs
  · refine ⟨fun s hs => ?_, fun s hs => ?_⟩
    · rw [cond_true] at hs
      cases hs
    · rw [cond_true] at hs
      rw [cond_true]
      exact ⟨(hL.piece_at_set_turn b.pos _ s).trans (hb2 s hs).1, List.not_mem_nil s⟩

/-- C7 witness: the amended theorem applied to the concrete state cb5,
which satisfies the invariant. -/
theorem C7_invariant_endTurn_selection_witness :
    rights_invariant cb5 ∧ rights_invariant (next_player cb5) ∧ (get_moves cb5).2 = cb5 :=
  ⟨by decide, (C7_invariant_endTurn_selection ToyEngine toy_laws cb5 (by decide)).1,
   (C7_invariant_endTurn_selection ToyEngine toy_laws cb5 (by decide)).2⟩

/-- C8: move selection on an empty dice multiset returns the empty list
without failing, and on a dice multiset of size greater than three it fails
with the ValueError of the source instead of returning a result. -/
theorem C8_get_moves_dice_count (E : Engine) (b : DiceBoard E) :
    (b.dice_roll.length = 0 → (get_moves b).1 = Except.ok []) ∧
    (3 < b.dice_roll.length →
      (get_moves b).1 =
        Except.error "This class is not coded for more than three dices.") := by
  constructor
  · intro h
    unfold get_moves
    dsimp only
    rw [if_pos h]
  · intro h
    unfold get_moves
    dsimp only
    rw [if_neg (by omega), if_neg (by omega), if_neg (by omega), if_neg (by omega)]

/-- C8 witness: the dice-count theorem applied to the concrete states cb8a
(no dice) and cb8b (four dice). -/
theorem C8_get_moves_dice_count_witness :
    (get_moves cb8a).1 = Except.ok [] ∧
    (get_moves cb8b).1 =
      Except.error "This class is not coded for more than three dices." :=
  ⟨(C8_get_moves_dice_count ToyEngine cb8a).1 (by decide),
   (C8_get_moves_dice_count ToyEngine cb8b).2 (by decide)⟩

/-- C10: applyMove without die consumption leaves the dice multiset and both
right-sets exactly unchanged — no die removed, no right granted or removed,
no en-passant pawn removal — while still applying the board move, forcing
the side to move back to the mover, and clearing the engine's standard
en-passant square. -/
theorem C10_push_no_changes_frame (E : Engine) (hL : EngineLaws E)
    (b : DiceBoard E) (move : Move) :
    (push b move false).dice_roll = b.dice_roll ∧
    (push b move false).ep_white = b.ep_white ∧
    (push b move false).ep_black = b.ep_black ∧
    (push b move false).pos =
      E.clear_ep_square (E.set_turn (E.push b.pos move) (E.turn b.pos)) ∧
    E.turn (push b move false).pos = E.turn b.pos ∧
    E.ep_square (push b move false).pos = none := by
  have hpos : (push b move false).pos =
      E.clear_ep_square (E.set_turn (E.push b.pos move) (E.turn b.pos)) := rfl
  have hw : (push b move false).ep_white = b.ep_white := by
    unfold push
    dsimp only
    rw [ep_capture_flag_no_changes, grant_flag_no_changes, cond_false, cond_false]
    unfold ep_squares
    cases h : E.turn b.pos <;> simp [h]
  have hbl : (push b move false).ep_black = b.ep_black := by
    unfold push
    dsimp only
    rw [ep_capture_flag_no_changes, grant_flag_no_changes, cond_false, cond_false]
    unfold ep_squares
    cases h : E.turn b.pos <;> simp [h]
  refine ⟨rfl, hw, hbl, hpos, ?_, ?_⟩
  · rw [hpos, hL.turn_clear_ep, hL.turn_set_turn]
  · rw [hpos, hL.ep_square_clear]

/-- C10 witness: the no-consumption frame theorem applied to the concrete
state cb10 and the move from 8 to 16. -/
theorem C10_push_no_changes_frame_witness :
    EngineLaws ToyEngine ∧
    (push cb10 ⟨8, 16⟩ false).dice_roll = cb10.dice_roll ∧
    (push cb10 ⟨8, 16⟩ false).ep_white = cb10.ep_white ∧
    (push cb10 ⟨8, 16⟩ false).ep_black = cb10.ep_black ∧
    ToyEngine.turn (push cb10 ⟨8, 16⟩ false).pos = ToyEngine.turn cb10.pos ∧
    ToyEngine.ep_square (push cb10 ⟨8, 16⟩ false).pos = none :=
  ⟨toy_laws,
   (C10_push_no_changes_frame ToyEngine toy_laws cb10 ⟨8, 16⟩).1,
   (C10_push_no_changes_frame ToyEngine toy_laws cb10 ⟨8, 16⟩).2.1,
   (C10_push_no_changes_frame ToyEngine toy_laws cb10 ⟨8, 16⟩).2.2.1,
   (C10_push_no_changes_frame ToyEngine toy_laws cb10 ⟨8, 16⟩).2.2.2.2.1,
   (C10_push_no_changes_frame ToyEngine toy_laws cb10 ⟨8, 16⟩).2.2.2.2.2⟩

end DiceChess
